import Mathlib

set_option autoImplicit false

namespace Chipp

/-! Shallow embedding of the chipp-rs client (src/client.rs, src/error.rs,
src/types.rs) and its SSE stream decoder (src/stream.rs).  Machine strings
are Lean `String`s; inside the stream decoder the byte buffer is modelled
as the `List Char` of its UTF-8 decoded characters. -/

/-- reqwest transport error, reduced to the three classification flags that
`ChippClient::is_retryable_error` inspects (client.rs line 57). -/
structure ReqwestError where
  is_timeout : Bool
  is_connect : Bool
  is_request : Bool
  deriving DecidableEq

/-- error.rs lines 7-36: `ChippClientError`. -/
inductive ChippClientError where
  | HttpError (e : ReqwestError)
  | InvalidResponse (msg : String)
  | ApiError (status : Nat) (message : String)
  | StreamError (msg : String)
  | MaxRetriesExceeded (n : Nat)
  | ConfigError (msg : String)
  deriving DecidableEq

/-- types.rs lines 124-137: token usage counts. -/
structure Usage where
  prompt_tokens : Nat
  completion_tokens : Nat
  total_tokens : Nat
  deriving DecidableEq

/-- types.rs lines 322-329: message inside an API response. -/
structure ResponseMessage where
  role : String
  content : String
  deriving DecidableEq

/-- types.rs lines 305-315: one completion choice. -/
structure Choice where
  index : Nat
  message : ResponseMessage
  finish_reason : String
  deriving DecidableEq

/-- types.rs lines 278-301: raw non-streaming response body. -/
structure ChatCompletionResponse where
  chat_session_id : String
  id : String
  object : String
  created : Int
  model : String
  choices : List Choice
  usage : Usage
  deriving DecidableEq

/-- types.rs lines 183-198: public response type. -/
structure ChatResponse where
  content : String
  session_id : String
  usage : Usage
  completion_id : String
  created_at : Int
  finish_reason : String
  model : String
  deriving DecidableEq

/-- types.rs lines 89-92: session state, holding the optional continuity id. -/
structure ChippSession where
  chat_session_id : Option String
  deriving DecidableEq

/-- config.rs: the configuration fields (durations as abstract naturals). -/
structure ChippConfig where
  api_key : String
  base_url : String
  model : String
  timeout : Nat
  max_retries : Nat
  initial_retry_delay : Nat
  max_retry_delay : Nat
  deriving DecidableEq

/-- types.rs lines 335-354, `From<ChatCompletionResponse> for ChatResponse`,
specialised to the first choice.  The Rust impl takes `choices.into_iter().next()`
and panics when there is none; its sole caller (`chat_attempt`) guards
non-emptiness first, so the embedding exposes the conversion applied to the
first choice. -/
def chatResponseOfFirst (resp : ChatCompletionResponse) (choice : Choice) : ChatResponse :=
  { content := choice.message.content
    session_id := resp.chat_session_id
    usage := resp.usage
    completion_id := resp.id
    created_at := resp.created
    finish_reason := choice.finish_reason
    model := resp.model }

/-- types.rs lines 335-354 as a total function: `some` exactly when the
choices array is non-empty. -/
def chatResponseFrom (resp : ChatCompletionResponse) : Option ChatResponse :=
  resp.choices.head?.map (chatResponseOfFirst resp)

/-- client.rs lines 55-61: `ChippClient::is_retryable_error`. -/
def is_retryable_error : ChippClientError → Bool
  | .HttpError e => e.is_timeout || e.is_connect || e.is_request
  | .ApiError status _ => (500 ≤ status) || (status = 429)
  | _ => false

/-- reqwest `StatusCode::is_success`: the 2xx range. -/
def is_success (status : Nat) : Bool := 200 ≤ status && status ≤ 299

deriving instance DecidableEq for Except

/-- What one HTTP round trip of `chat_attempt` can produce: a transport-level
send error, or a response with a status, a raw body text and a body-parse
outcome (`.error` models a serde decode failure carrying its message). -/
inductive HttpOutcome where
  | sendErr (e : ReqwestError)
  | response (status : Nat) (text : String) (json : Except String ChatCompletionResponse)
  deriving DecidableEq

/-- client.rs lines 200-250: `ChippClient::chat_attempt`.  The network round
trip itself is abstracted by the `outcome` argument; `correlation_id` is the
value sent in the `X-Correlation-ID` header of this attempt.  Returns the
attempt result together with the (possibly updated) session: the session id
is assigned only after the status check and the non-empty-choices validation
both pass (client.rs line 246). -/
def chat_attempt (session : ChippSession) (correlation_id : String)
    (outcome : HttpOutcome) : Except ChippClientError ChatResponse × ChippSession :=
  match outcome with
  | .sendErr e => (.error (.HttpError e), session)
  | .response status text json =>
      if is_success status then
        match json with
        | .error e => (.error (.InvalidResponse ("Failed to parse response: " ++ e)), session)
        | .ok body =>
            match body.choices with
            | [] => (.error (.InvalidResponse "No choices in response"), session)
            | choice :: _ =>
                (.ok (chatResponseOfFirst body choice),
                  { session with chat_session_id := some body.chat_session_id })
      else
        (.error (.ApiError status text), session)

/-- backoff crate `Backoff::next_backoff` under the builder of client.rs
lines 64-72: `with_max_elapsed_time(None)` means the policy never gives up,
so a delay is always produced; the jittered delay value is abstracted as
`delays n` for the n-th call. -/
def next_backoff (delays : Nat → Nat) (n : Nat) : Option Nat := some (delays n)

/-- Observable outcome of one `chat_detailed` call: terminal result, final
session, number of attempts performed, backoff delays slept, and the
`X-Correlation-ID` header value of each attempt in order. -/
structure RunResult where
  result : Except ChippClientError ChatResponse
  session : ChippSession
  attempts : Nat
  sleeps : List Nat
  cids : List String
  deriving DecidableEq

/-- client.rs lines 169-194: the retry loop of `chat_detailed`.  `n` is the
1-based number of the attempt about to run (the Rust `attempt` counter after
its increment) and `remaining = max_attempts - n`; under that invariant the
Rust guard `attempt >= max_attempts` is exactly `remaining = 0`.  The
responses of successive attempts are provided by `oracle`. -/
def chipp_loop (cfg : ChippConfig) (oracle : Nat → HttpOutcome) (delays : Nat → Nat)
    (correlation_id : String) :
    ChippSession → Nat → Nat → RunResult
  | session, n, remaining =>
    match chat_attempt session correlation_id (oracle n) with
    | (.ok resp, session') =>
        ⟨.ok resp, session', n, [], [correlation_id]⟩
    | (.error e, session') =>
        match remaining with
        | 0 => ⟨.error (.MaxRetriesExceeded cfg.max_retries), session', n, [], [correlation_id]⟩
        | remaining' + 1 =>
            if is_retryable_error e then
              match next_backoff delays n with
              | some d =>
                  let rest := chipp_loop cfg oracle delays correlation_id session' (n + 1) remaining'
                  ⟨rest.result, rest.session, rest.attempts, d :: rest.sleeps,
                    correlation_id :: rest.cids⟩
              | none => ⟨.error e, session', n, [], [correlation_id]⟩
            else
              ⟨.error e, session', n, [], [correlation_id]⟩

/-- client.rs lines 157-195: `ChippClient::chat_detailed`.  One correlation id
is generated before the loop (line 162) and passed to every attempt; the
attempt budget is `max_retries + 1`. -/
def chat_detailed (cfg : ChippConfig) (oracle : Nat → HttpOutcome) (delays : Nat → Nat)
    (correlation_id : String) (session : ChippSession) : RunResult :=
  chipp_loop cfg oracle delays correlation_id session 1 cfg.max_retries

/-- client.rs lines 107-114: `ChippClient::chat`, the content-only wrapper. -/
def chat (cfg : ChippConfig) (oracle : Nat → HttpOutcome) (delays : Nat → Nat)
    (correlation_id : String) (session : ChippSession) :
    Except ChippClientError String × ChippSession :=
  let run := chat_detailed cfg oracle delays correlation_id session
  (run.result.map (fun r => r.content), run.session)

/-! stream.rs: the SSE stream decoder.  The decoded UTF-8 text of the buffer
and of the lines is modelled as `List Char`. -/

/-- stream.rs lines 29-36: `StreamEvent`. -/
inductive StreamEvent where
  | TextDelta (s : List Char)
  | SessionId (s : List Char)
  | Done
  deriving DecidableEq

/-- stream.rs lines 55-58: one annotation of a `message-metadata` event. -/
structure Annotation where
  persisted_message_id : Option (List Char)
  deriving DecidableEq

/-- stream.rs lines 50-52: `MessageMetadata`. -/
structure MessageMetadata where
  annotations : List Annotation
  deriving DecidableEq

/-- stream.rs lines 40-47: the JSON shape of one SSE event. -/
structure SseEvent where
  event_type : List Char
  delta : Option (List Char)
  message_metadata : Option MessageMetadata
  deriving DecidableEq

/-- Rust `str::strip_prefix`: drop `p` from the front of `s` when present. -/
def stripPrefixChars : List Char → List Char → Option (List Char)
  | [], s => some s
  | _ :: _, [] => none
  | p :: ps, c :: cs => if c = p then stripPrefixChars ps cs else none

/-- Rust `str::trim`: drop whitespace from both ends. -/
def trimChars (l : List Char) : List Char :=
  ((l.dropWhile Char.isWhitespace).reverse.dropWhile Char.isWhitespace).reverse

/-! A small JSON model of serde_json, sufficient for `serde_json::from_str`
as used by `parse_sse_line`.  Numbers are kept as their raw token text (no
event field is numeric); `\u` escapes decode the four hex digits directly
(no surrogate-pair merging, which no event line uses). -/

/-- A parsed JSON value. -/
inductive Json where
  | null
  | bool (b : Bool)
  | num (tok : List Char)
  | str (s : List Char)
  | arr (elems : List Json)
  | obj (fields : List (List Char × Json))

/-- The `{` character, written by code point. -/
def lbrace : Char := '\x7b'

/-- The `}` character, written by code point. -/
def rbrace : Char := '\x7d'

/-- JSON insignificant whitespace. -/
def jsonWs (c : Char) : Bool := c = ' ' || c = '\t' || c = '\n' || c = '\r'

/-- Skip insignificant whitespace. -/
def skipWs (s : List Char) : List Char := s.dropWhile jsonWs

/-- Value of one hex digit. -/
def hexVal (c : Char) : Option Nat :=
  if '0' ≤ c ∧ c ≤ '9' then some (c.toNat - '0'.toNat)
  else if 'a' ≤ c ∧ c ≤ 'f' then some (c.toNat - 'a'.toNat + 10)
  else if 'A' ≤ c ∧ c ≤ 'F' then some (c.toNat - 'A'.toNat + 10)
  else none

/-- Single-character JSON string escapes. -/
def escChar (c : Char) : Option Char :=
  if c = '"' then some '"'
  else if c = '\\' then some '\\'
  else if c = '/' then some '/'
  else if c = 'b' then some (Char.ofNat 8)
  else if c = 'f' then some (Char.ofNat 12)
  else if c = 'n' then some '\n'
  else if c = 'r' then some '\r'
  else if c = 't' then some '\t'
  else none

/-- Parse the body of a JSON string after its opening quote; returns the
content and the input after the closing quote.  Unescaped control
characters are rejected, as in serde_json. -/
def parseStringBody : List Char → Option (List Char × List Char)
  | [] => none
  | '"' :: rest => some ([], rest)
  | '\\' :: 'u' :: a :: b :: c :: d :: rest => do
      let ha ← hexVal a
      let hb ← hexVal b
      let hc ← hexVal c
      let hd ← hexVal d
      let (cs, r) ← parseStringBody rest
      some (Char.ofNat (((ha * 16 + hb) * 16 + hc) * 16 + hd) :: cs, r)
  | '\\' :: e :: rest => do
      let c ← escChar e
      let (cs, r) ← parseStringBody rest
      some (c :: cs, r)
  | c :: rest =>
      if c.toNat < 32 then none
      else do
        let (cs, r) ← parseStringBody rest
        some (c :: cs, r)

/-- Characters a number token may contain. -/
def numberChar (c : Char) : Bool :=
  c.isDigit || c = '-' || c = '+' || c = '.' || c = 'e' || c = 'E'

/-- Lex one number token (kept as raw text). -/
def parseNumber (s : List Char) : Option (Json × List Char) :=
  let tok := s.takeWhile numberChar
  if tok.isEmpty then none else some (.num tok, s.dropWhile numberChar)

mutual

/-- Recursive-descent JSON value parser; `fuel` bounds nesting and list
length and is set to the input length at the top entry. -/
def parseValue : Nat → List Char → Option (Json × List Char)
  | 0, _ => none
  | fuel + 1, s =>
      match skipWs s with
      | [] => none
      | c :: rest =>
          if c = '"' then (parseStringBody rest).map (fun p => (.str p.1, p.2))
          else if c = lbrace then parseObjFields fuel (skipWs rest) true
          else if c = '[' then parseArrElems fuel (skipWs rest) true
          else if c = 't' then (stripPrefixChars "rue".data rest).map (fun r => (.bool true, r))
          else if c = 'f' then (stripPrefixChars "alse".data rest).map (fun r => (.bool false, r))
          else if c = 'n' then (stripPrefixChars "ull".data rest).map (fun r => (.null, r))
          else if c = '-' || c.isDigit then parseNumber (c :: rest)
          else none

/-- Parse the members of an object after `{` (whitespace already skipped);
`first` is true before any member has been read. -/
def parseObjFields : Nat → List Char → Bool → Option (Json × List Char)
  | 0, _, _ => none
  | fuel + 1, s, first =>
      match s with
      | [] => none
      | c :: rest =>
          if c = rbrace && first then some (.obj [], rest)
          else if c = '"' then do
            let (key, r1) ← parseStringBody rest
            match skipWs r1 with
            | ':' :: r2 => do
                let (v, r3) ← parseValue fuel r2
                match skipWs r3 with
                | ',' :: r4 => do
                    let (j, r5) ← parseObjFields fuel (skipWs r4) false
                    match j with
                    | .obj fs => some (.obj ((key, v) :: fs), r5)
                    | _ => none
                | c2 :: r4 =>
                    if c2 = rbrace then some (.obj [(key, v)], r4) else none
                | [] => none
            | _ => none
          else none

/-- Parse the elements of an array after `[` (whitespace already skipped);
`first` is true before any element has been read. -/
def parseArrElems : Nat → List Char → Bool → Option (Json × List Char)
  | 0, _, _ => none
  | fuel + 1, s, first =>
      match s with
      | [] => none
      | c :: rest =>
          if c = ']' && first then some (.arr [], rest)
          else do
            let (v, r1) ← parseValue fuel s
            match skipWs r1 with
            | ',' :: r2 => do
                let (j, r3) ← parseArrElems fuel (skipWs r2) false
                match j with
                | .arr vs => some (.arr (v :: vs), r3)
                | _ => none
            | ']' :: r2 => some (.arr [v], r2)
            | _ => none

end

/-- serde_json `from_str`: a complete JSON document with only whitespace
after it; any parse error becomes `none` (the caller uses `.ok()`). -/
def json_from_str (s : List Char) : Option Json :=
  match parseValue (2 * s.length + 2) s with
  | some (j, rest) => if skipWs rest = [] then some j else none
  | none => none

/-- Look a field up in a parsed object (serde matches fields by name;
unknown fields are ignored by the derive's default policy). -/
def objLookup (fields : List (List Char × Json)) (key : List Char) : Option Json :=
  match fields with
  | [] => none
  | (k, v) :: rest => if k = key then some v else objLookup rest key

/-- serde semantics of an `Option<String>` field: missing or `null` is
`None`, a string is `Some`, anything else is a type error. -/
def optStringField (fields : List (List Char × Json)) (key : List Char) :
    Option (Option (List Char)) :=
  match objLookup fields key with
  | none => some none
  | some .null => some none
  | some (.str s) => some (some s)
  | some _ => none

/-- serde `Deserialize` of `Annotation` (stream.rs lines 54-58). -/
def annotationOfJson : Json → Option Annotation
  | .obj fs => (optStringField fs "persistedMessageId".data).map Annotation.mk
  | _ => none

/-- serde `Deserialize` of `MessageMetadata` (stream.rs lines 49-52):
`annotations` is a required array field. -/
def messageMetadataOfJson : Json → Option MessageMetadata
  | .obj fs =>
      match objLookup fs "annotations".data with
      | some (.arr xs) => (xs.mapM annotationOfJson).map MessageMetadata.mk
      | _ => none
  | _ => none

/-- serde `Deserialize` of `SseEvent` (stream.rs lines 39-47): `type` is a
required string (renamed field), `delta` and `messageMetadata` are optional. -/
def sseEventOfJson : Json → Option SseEvent
  | .obj fs =>
      match objLookup fs "type".data with
      | some (.str t) =>
          match optStringField fs "delta".data with
          | none => none
          | some d =>
              match objLookup fs "messageMetadata".data with
              | none => some ⟨t, d, none⟩
              | some .null => some ⟨t, d, none⟩
              | some j => (messageMetadataOfJson j).map (fun m => ⟨t, d, some m⟩)
      | _ => none
  | _ => none

/-- stream.rs lines 61-84: `parse_sse_line`. -/
def parse_sse_line (line : List Char) : Option StreamEvent :=
  match stripPrefixChars "data: ".data line with
  | none => none
  | some data =>
      if data = "[DONE]".data then some .Done
      else
        match json_from_str data with
        | none => none
        | some j =>
            match sseEventOfJson j with
            | none => none
            | some event =>
                if event.event_type = "text-delta".data then
                  event.delta.map StreamEvent.TextDelta
                else if event.event_type = "message-metadata".data then
                  event.message_metadata.bind fun meta =>
                    meta.annotations.findSome? fun ann =>
                      ann.persisted_message_id.map StreamEvent.SessionId
                else none

/-- One item of the inner reqwest byte stream (stream.rs line 109), as seen
after the UTF-8 decode of stream.rs line 199: a chunk whose bytes decode to
`text`, a chunk of invalid UTF-8 (carrying the decode error's text), or a
transport error.  An exhausted source yields no further items. -/
inductive InnerItem where
  | chunk (text : List Char)
  | badUtf8 (err : String)
  | httpErr (e : ReqwestError)
  deriving DecidableEq

/-- The mutable fields of `ChippStream` (stream.rs lines 107-116) other than
the inner source: the line buffer, the shared `session_id` cell and the
`finished` flag. -/
structure DecState where
  buffer : List Char
  cell : Option (List Char)
  finished : Bool
  deriving DecidableEq

/-- stream.rs line 132-137: the state of a freshly created `ChippStream`. -/
def initState : DecState := ⟨[], none, false⟩

/-- Split at every newline: the image of Rust's repeated `find('\n')` view of
the buffer.  Always non-empty; the last element is the open (un-terminated)
tail, every element is newline-free. -/
def splitOnNl : List Char → List (List Char)
  | [] => [[]]
  | c :: cs =>
      if c = '\n' then [] :: splitOnNl cs
      else
        match splitOnNl cs with
        | [] => [[c]]
        | s :: ss => (c :: s) :: ss

/-- Re-join segments with newlines; inverse of `splitOnNl` on newline-free
segments. -/
def intercalateNl : List (List Char) → List Char
  | [] => []
  | [s] => s
  | s :: s2 :: ss => s ++ '\n' :: intercalateNl (s2 :: ss)

/-- The loop body of stream.rs lines 150-176: process the complete lines of
the buffer (its `splitOnNl` segments except the last) in order.  Returns the
emitted text chunk (if any), the session cell, the finished flag and the
unconsumed segments.  The `try_lock` of line 166 always succeeds in this
single-task model. -/
def process_buffer_go (cell : Option (List Char)) (fin : Bool) :
    List (List Char) → Option (List Char) × Option (List Char) × Bool × List (List Char)
  | [] => (none, cell, fin, [])
  | [tail] => (none, cell, fin, [tail])
  | seg :: next :: rest =>
      let line := trimChars seg
      if line.isEmpty then process_buffer_go cell fin (next :: rest)
      else
        match parse_sse_line line with
        | some (.TextDelta t) => (some t, cell, fin, next :: rest)
        | some (.SessionId id) => process_buffer_go (some id) fin (next :: rest)
        | some .Done => (none, cell, true, next :: rest)
        | none => process_buffer_go cell fin (next :: rest)

/-- stream.rs lines 148-178: `ChippStream::process_buffer`. -/
def process_buffer (st : DecState) : Option (List Char) × DecState :=
  match process_buffer_go st.cell st.finished (splitOnNl st.buffer) with
  | (res, cell, fin, segs) => (res, ⟨intercalateNl segs, cell, fin⟩)

/-- The observable result of one `poll_next`: an item of the stream, or the
end of the stream (`Poll::Ready(None)`).  `Poll::Pending` does not arise in
this model because the inner source is a list that is always ready. -/
inductive PollOut where
  | event (r : Except ChippClientError String)
  | closed
  deriving DecidableEq

/-- stream.rs lines 195-233: the inner polling loop of `poll_next`; returns
the poll result, the unconsumed suffix of the source, and the new state. -/
def poll_loop : List InnerItem → DecState → PollOut × List InnerItem × DecState
  | [], st =>
      if st.buffer.isEmpty then (.closed, [], { st with finished := true })
      else
        match process_buffer st with
        | (some t, st') => (.event (.ok (String.mk t)), [], st')
        | (none, st') => (.closed, [], { st' with finished := true })
  | item :: rest, st =>
      match item with
      | .chunk text =>
          match process_buffer { st with buffer := st.buffer ++ text } with
          | (some t, st') => (.event (.ok (String.mk t)), rest, st')
          | (none, st') => poll_loop rest st'
      | .badUtf8 err =>
          (.event (.error (.StreamError ("Invalid UTF-8 in stream: " ++ err))), rest, st)
      | .httpErr e =>
          (.event (.error (.HttpError e)), rest, st)

/-- stream.rs lines 184-234: `ChippStream::poll_next`. -/
def poll_next (src : List InnerItem) (st : DecState) :
    PollOut × List InnerItem × DecState :=
  if st.finished then (.closed, src, st)
  else
    match process_buffer st with
    | (some t, st') => (.event (.ok (String.mk t)), src, st')
    | (none, st') => poll_loop src st'

/-- The consumer loop `while let Some(chunk) = stream.next().await`: poll
until the stream reports no more items, collecting every item in order.
`fuel` bounds the number of polls and is chosen large enough at each use. -/
def collectStream : Nat → List InnerItem → DecState →
    List (Except ChippClientError String) × DecState
  | 0, _, st => ([], st)
  | fuel + 1, src, st =>
      match poll_next src st with
      | (.closed, _, st') => ([], st')
      | (.event r, src', st') =>
          match collectStream fuel src' st' with
          | (rs, st'') => (r :: rs, st'')

/-! Helper lemmas about the retry loop. -/

/-- A failed attempt leaves the session untouched: every error branch of
`chat_attempt` returns the input session. -/
theorem chat_attempt_error_pair {session : ChippSession} {cid : String}
    {o : HttpOutcome} {e : ChippClientError}
    (h : (chat_attempt session cid o).1 = .error e) :
    chat_attempt session cid o = (.error e, session) := by
  unfold chat_attempt at h ⊢
  repeat' split at h
  all_goals simp_all

/-- A failed attempt leaves the session untouched. -/
theorem chat_attempt_error_session {session : ChippSession} {cid : String}
    {o : HttpOutcome} {e : ChippClientError}
    (h : (chat_attempt session cid o).1 = .error e) :
    (chat_attempt session cid o).2 = session := by
  rw [chat_attempt_error_pair h]

/-- Unfolding of one retryable-failure iteration of the loop (client.rs
lines 181-188): sleep once, then continue with the next attempt. -/
theorem chipp_loop_retry_step (cfg : ChippConfig) (oracle : Nat → HttpOutcome)
    (delays : Nat → Nat) (cid : String) (session : ChippSession) (n r : Nat)
    (e : ChippClientError)
    (h : (chat_attempt session cid (oracle n)).1 = .error e)
    (hr : is_retryable_error e = true) :
    chipp_loop cfg oracle delays cid session n (r + 1) =
      ⟨(chipp_loop cfg oracle delays cid session (n + 1) r).result,
        (chipp_loop cfg oracle delays cid session (n + 1) r).session,
        (chipp_loop cfg oracle delays cid session (n + 1) r).attempts,
        delays n :: (chipp_loop cfg oracle delays cid session (n + 1) r).sleeps,
        cid :: (chipp_loop cfg oracle delays cid session (n + 1) r).cids⟩ := by
  have hp := chat_attempt_error_pair h
  rw [chipp_loop, hp]
  simp [hr, next_backoff]

/-- Unfolding of a fatal-failure iteration with budget left (client.rs
lines 189-192): the original failure is returned at once. -/
theorem chipp_loop_fatal_step (cfg : ChippConfig) (oracle : Nat → HttpOutcome)
    (delays : Nat → Nat) (cid : String) (session : ChippSession) (n r : Nat)
    (e : ChippClientError)
    (h : (chat_attempt session cid (oracle n)).1 = .error e)
    (hr : is_retryable_error e = false) :
    chipp_loop cfg oracle delays cid session n (r + 1) =
      ⟨.error e, session, n, [], [cid]⟩ := by
  have hp := chat_attempt_error_pair h
  rw [chipp_loop, hp]
  simp [hr]

/-- Unfolding of the budget-exhausted iteration (client.rs lines 175-180):
any failure on the final budgeted attempt becomes `MaxRetriesExceeded`. -/
theorem chipp_loop_exhaust_step (cfg : ChippConfig) (oracle : Nat → HttpOutcome)
    (delays : Nat → Nat) (cid : String) (session : ChippSession) (n : Nat)
    (e : ChippClientError)
    (h : (chat_attempt session cid (oracle n)).1 = .error e) :
    chipp_loop cfg oracle delays cid session n 0 =
      ⟨.error (.MaxRetriesExceeded cfg.max_retries), session, n, [], [cid]⟩ := by
  have hp := chat_attempt_error_pair h
  rw [chipp_loop, hp]

/-- Reindexing of the sleeps recorded by one peeled loop iteration. -/
theorem sleeps_shift (j n : Nat) (delays : Nat → Nat) :
    delays n :: (List.range j).map (fun i => delays (n + 1 + i)) =
      (List.range (j + 1)).map (fun i => delays (n + i)) := by
  rw [List.range_succ_eq_map, List.map_cons, List.map_map]
  refine congrArg₂ List.cons (by simp) ?_
  apply List.map_congr_left
  intro i _
  simp only [Function.comp_apply]
  congr 1
  omega

/-- A run whose first `j` attempts fail retryably and whose attempt `n + j`
fails fatally, with budget to spare, ends at attempt `n + j` with the
original fatal error, one sleep per preceding retryable failure, and the
session untouched. -/
theorem chipp_loop_fatal_run (cfg : ChippConfig) (oracle : Nat → HttpOutcome)
    (delays : Nat → Nat) (cid : String) :
    ∀ (j n r : Nat) (session : ChippSession) (e : ChippClientError),
      (∀ k, n ≤ k → k < n + j →
        ∃ ek, (chat_attempt session cid (oracle k)).1 = .error ek ∧
          is_retryable_error ek = true) →
      (chat_attempt session cid (oracle (n + j))).1 = .error e →
      is_retryable_error e = false →
      j < r →
      chipp_loop cfg oracle delays cid session n r =
        ⟨.error e, session, n + j, (List.range j).map (fun i => delays (n + i)),
          List.replicate (j + 1) cid⟩ := by
  intro j
  induction j with
  | zero =>
      intro n r session e _ hfat hnr hj
      obtain ⟨r', rfl⟩ : ∃ r', r = r' + 1 := ⟨r - 1, by omega⟩
      rw [chipp_loop_fatal_step cfg oracle delays cid session n r' e (by simpa using hfat) hnr]
      simp
  | succ j ih =>
      intro n r session e hpre hfat hnr hj
      obtain ⟨ek, hek, hrk⟩ := hpre n le_rfl (by omega)
      obtain ⟨r', rfl⟩ : ∃ r', r = r' + 1 := ⟨r - 1, by omega⟩
      rw [chipp_loop_retry_step cfg oracle delays cid session n r' ek hek hrk]
      rw [ih (n + 1) r' session e
        (fun k hk1 hk2 => hpre k (by omega) (by omega))
        (by rw [show n + 1 + j = n + (j + 1) by omega]; exact hfat) hnr (by omega)]
      simp only
      congr 1
      · omega
      · exact sleeps_shift j n delays

/-- A run all of whose budgeted attempts fail retryably consumes the whole
budget and ends in `MaxRetriesExceeded`, with the session untouched. -/
theorem chipp_loop_exhaust_run (cfg : ChippConfig) (oracle : Nat → HttpOutcome)
    (delays : Nat → Nat) (cid : String) :
    ∀ (r n : Nat) (session : ChippSession),
      (∀ k, n ≤ k → k ≤ n + r →
        ∃ ek, (chat_attempt session cid (oracle k)).1 = .error ek ∧
          is_retryable_error ek = true) →
      chipp_loop cfg oracle delays cid session n r =
        ⟨.error (.MaxRetriesExceeded cfg.max_retries), session, n + r,
          (List.range r).map (fun i => delays (n + i)), List.replicate (r + 1) cid⟩ := by
  intro r
  induction r with
  | zero =>
      intro n session hpre
      obtain ⟨ek, hek, _⟩ := hpre n le_rfl (by omega)
      rw [chipp_loop_exhaust_step cfg oracle delays cid session n ek hek]
      simp
  | succ r ih =>
      intro n session hpre
      obtain ⟨ek, hek, hrk⟩ := hpre n le_rfl (by omega)
      rw [chipp_loop_retry_step cfg oracle delays cid session n r ek hek hrk]
      rw [ih (n + 1) session (fun k hk1 hk2 => hpre k (by omega) (by omega))]
      simp only
      congr 1
      · omega
      · exact sleeps_shift r n delays

/-- Any erroring run leaves the session untouched. -/
theorem chipp_loop_error_session (cfg : ChippConfig) (oracle : Nat → HttpOutcome)
    (delays : Nat → Nat) (cid : String) :
    ∀ (r n : Nat) (session : ChippSession) (e : ChippClientError),
      (chipp_loop cfg oracle delays cid session n r).result = .error e →
      (chipp_loop cfg oracle delays cid session n r).session = session := by
  intro r
  induction r with
  | zero =>
      intro n session e h
      rw [chipp_loop] at h ⊢
      rcases hq : chat_attempt session cid (oracle n) with ⟨res, s2⟩
      cases res with
      | ok v => rw [hq] at h; simp at h
      | error e0 =>
          have := chat_attempt_error_session (e := e0) (by rw [hq])
          rw [hq] at this
          simpa using this
  | succ r ih =>
      intro n session e h
      rw [chipp_loop] at h ⊢
      rcases hq : chat_attempt session cid (oracle n) with ⟨res, s2⟩
      cases res with
      | ok v => rw [hq] at h; simp at h
      | error e0 =>
          rw [hq] at h
          have hs2 : s2 = session := by
            have := chat_attempt_error_session (e := e0) (by rw [hq])
            rw [hq] at this
            simpa using this
          rw [hs2] at h ⊢
          by_cases hr : is_retryable_error e0 = true
          · simp only [hr, if_true, next_backoff] at h ⊢
            exact ih (n + 1) session e h
          · simp only [Bool.not_eq_true] at hr
            simp only [hr, Bool.false_eq_true, if_false] at h ⊢

/-- Every attempt of a run records the single correlation id of the call. -/
theorem chipp_loop_cids_replicate (cfg : ChippConfig) (oracle : Nat → HttpOutcome)
    (delays : Nat → Nat) (cid : String) :
    ∀ (r n : Nat) (session : ChippSession),
      (chipp_loop cfg oracle delays cid session n r).cids =
        List.replicate ((chipp_loop cfg oracle delays cid session n r).attempts + 1 - n)
          cid ∧
      n ≤ (chipp_loop cfg oracle delays cid session n r).attempts := by
  intro r
  induction r with
  | zero =>
      intro n session
      rw [chipp_loop]
      rcases chat_attempt session cid (oracle n) with ⟨res, s2⟩
      cases res <;> simp
  | succ r ih =>
      intro n session
      rw [chipp_loop]
      rcases chat_attempt session cid (oracle n) with ⟨res, s2⟩
      cases res with
      | ok v => simp
      | error e0 =>
          by_cases hr : is_retryable_error e0 = true
          · simp only [hr, if_true, next_backoff]
            obtain ⟨h1, h2⟩ := ih (n + 1) s2
            constructor
            · simp only [h1]
              rw [show (chipp_loop cfg oracle delays cid s2 (n + 1) r).attempts + 1 - n =
                ((chipp_loop cfg oracle delays cid s2 (n + 1) r).attempts + 1 - (n + 1)) + 1
                by omega]
              rw [List.replicate_succ]
            · omega
          · simp only [Bool.not_eq_true] at hr
            simp only [hr, Bool.false_eq_true, if_false]
            simp

/-! Claim theorems for the retry pipeline. -/

/-- C1 (counterexample): the claim "for every failure classified
non-retryable, at whatever attempt number it occurs within the budget,
chat_detailed returns that original failure" is false at the budget
boundary: with `max_retries = 0`, a non-retryable 400 failure on the only
budgeted attempt is summarised as `MaxRetriesExceeded 0` instead of being
returned as the original `ApiError`. -/
theorem c1_counterexample :
    is_retryable_error (.ApiError 400 "bad") = false ∧
    (chat_detailed ⟨"k", "u", "m", 30, 0, 1, 10⟩
        (fun _ => .response 400 "bad" (.error "")) (fun _ => 1) "c" ⟨none⟩).result =
      .error (.MaxRetriesExceeded 0) ∧
    (chat_detailed ⟨"k", "u", "m", 30, 0, 1, 10⟩
        (fun _ => .response 400 "bad" (.error "")) (fun _ => 1) "c" ⟨none⟩).result ≠
      .error (.ApiError 400 "bad") := by
  refine ⟨rfl, rfl, ?_⟩
  decide

/-- C1 (amended): for every failure classified non-retryable that occurs at
an attempt number strictly below the final budgeted attempt (after any
number of earlier retryable failures), `chat_detailed` returns that original
failure immediately: no further attempts are made, no backoff sleep is
consumed beyond the ones of the earlier retryable failures, and the session
is untouched.  On the final budgeted attempt the failure is instead
summarised as `MaxRetriesExceeded` (see the counterexample). -/
theorem c1_fatal_before_final_attempt (cfg : ChippConfig) (oracle : Nat → HttpOutcome)
    (delays : Nat → Nat) (cid : String) (session : ChippSession) (j : Nat)
    (e : ChippClientError)
    (hpre : ∀ k, 1 ≤ k → k < 1 + j →
      ∃ ek, (chat_attempt session cid (oracle k)).1 = .error ek ∧
        is_retryable_error ek = true)
    (hfat : (chat_attempt session cid (oracle (1 + j))).1 = .error e)
    (hnr : is_retryable_error e = false)
    (hbudget : 1 + j < cfg.max_retries + 1) :
    (chat_detailed cfg oracle delays cid session).result = .error e ∧
    (chat_detailed cfg oracle delays cid session).attempts = 1 + j ∧
    (chat_detailed cfg oracle delays cid session).sleeps.length = j ∧
    (chat_detailed cfg oracle delays cid session).session = session := by
  have hrun := chipp_loop_fatal_run cfg oracle delays cid j 1 cfg.max_retries session e
    hpre hfat hnr (by omega)
  unfold chat_detailed
  rw [hrun]
  simp

/-- C1 (witness): a concrete run with `max_retries = 2` whose first attempt
fails retryably (500) and whose second fails fatally (400) ends after the
second attempt with the original 400 error, one sleep, and the session
untouched. -/
theorem c1_witness :
    (chat_detailed ⟨"k", "u", "m", 30, 2, 1, 10⟩
        (fun k => if k = 1 then .response 500 "ise" (.error "")
          else .response 400 "bad" (.error "")) (fun _ => 7) "c" ⟨none⟩).result =
      .error (.ApiError 400 "bad") ∧
    (chat_detailed ⟨"k", "u", "m", 30, 2, 1, 10⟩
        (fun k => if k = 1 then .response 500 "ise" (.error "")
          else .response 400 "bad" (.error "")) (fun _ => 7) "c" ⟨none⟩).attempts = 1 + 1 ∧
    (chat_detailed ⟨"k", "u", "m", 30, 2, 1, 10⟩
        (fun k => if k = 1 then .response 500 "ise" (.error "")
          else .response 400 "bad" (.error "")) (fun _ => 7) "c" ⟨none⟩).sleeps.length = 1 ∧
    (chat_detailed ⟨"k", "u", "m", 30, 2, 1, 10⟩
        (fun k => if k = 1 then .response 500 "ise" (.error "")
          else .response 400 "bad" (.error "")) (fun _ => 7) "c" ⟨none⟩).session = ⟨none⟩ :=
  c1_fatal_before_final_attempt _ _ _ _ _ 1 _
    (fun k hk1 hk2 => by
      obtain rfl : k = 1 := by omega
      exact ⟨.ApiError 500 "ise", rfl, rfl⟩)
    rfl rfl (by decide)

/-- C4: if every one of the `max_retries + 1` budgeted attempts fails with a
retryable failure, `chat_detailed` performs exactly `max_retries + 1`
attempts and returns the distinct `MaxRetriesExceeded` error carrying the
configured `max_retries` value, not the last underlying error. -/
theorem c4_retry_exhaustion (cfg : ChippConfig) (oracle : Nat → HttpOutcome)
    (delays : Nat → Nat) (cid : String) (session : ChippSession)
    (h : ∀ k, 1 ≤ k → k ≤ cfg.max_retries + 1 →
      ∃ ek, (chat_attempt session cid (oracle k)).1 = .error ek ∧
        is_retryable_error ek = true) :
    (chat_detailed cfg oracle delays cid session).result =
      .error (.MaxRetriesExceeded cfg.max_retries) ∧
    (chat_detailed cfg oracle delays cid session).attempts = cfg.max_retries + 1 := by
  have hrun := chipp_loop_exhaust_run cfg oracle delays cid cfg.max_retries 1 session
    (fun k hk1 hk2 => h k hk1 (by omega))
  unfold chat_detailed
  rw [hrun]
  exact ⟨rfl, by show 1 + cfg.max_retries = cfg.max_retries + 1; omega⟩

/-- C4 (witness): with `max_retries = 1` and every attempt failing with a
retryable 500, the run makes two attempts and ends in `MaxRetriesExceeded 1`. -/
theorem c4_witness :
    (chat_detailed ⟨"k", "u", "m", 30, 1, 1, 10⟩
        (fun _ => .response 500 "ise" (.error "")) (fun _ => 1) "c" ⟨none⟩).result =
      .error (.MaxRetriesExceeded 1) ∧
    (chat_detailed ⟨"k", "u", "m", 30, 1, 1, 10⟩
        (fun _ => .response 500 "ise" (.error "")) (fun _ => 1) "c" ⟨none⟩).attempts = 1 + 1 :=
  c4_retry_exhaustion _ _ _ _ _ (fun k _ _ => ⟨.ApiError 500 "ise", rfl, rfl⟩)

/-- C7 (counterexample): the claim "each retry attempt carries its own fresh
correlation identifier; identifiers of two distinct attempts are distinct"
is false: a run with two attempts uses the same id for both. -/
theorem c7_counterexample :
    (chat_detailed ⟨"k", "u", "m", 30, 1, 1, 10⟩
        (fun _ => .response 500 "ise" (.error "")) (fun _ => 1) "c-1" ⟨none⟩).attempts = 2 ∧
    (chat_detailed ⟨"k", "u", "m", 30, 1, 1, 10⟩
        (fun _ => .response 500 "ise" (.error "")) (fun _ => 1) "c-1" ⟨none⟩).cids =
      ["c-1", "c-1"] :=
  ⟨rfl, rfl⟩

/-- C7 (amended): every attempt of one `chat_detailed` call carries the same
correlation identifier in its `X-Correlation-ID` header, namely the single
id generated at the start of the call (client.rs line 162): the recorded
per-attempt ids are exactly `attempts` copies of that one id. -/
theorem c7_correlation_id_shared (cfg : ChippConfig) (oracle : Nat → HttpOutcome)
    (delays : Nat → Nat) (cid : String) (session : ChippSession) :
    (chat_detailed cfg oracle delays cid session).cids =
      List.replicate (chat_detailed cfg oracle delays cid session).attempts cid := by
  obtain ⟨h1, h2⟩ := chipp_loop_cids_replicate cfg oracle delays cid cfg.max_retries 1 session
  unfold chat_detailed
  rw [h1]
  congr 1

/-- C8: the failure classifier returns true exactly for transport errors
flagged timeout, connect or request-build, and for application failures
with status at least 500 or equal to 429; every other error is fatal. -/
theorem c8_is_retryable_characterisation (e : ChippClientError) :
    is_retryable_error e = true ↔
      ((∃ r, e = .HttpError r ∧ (r.is_timeout || r.is_connect || r.is_request) = true) ∨
        (∃ s m, e = .ApiError s m ∧ (500 ≤ s ∨ s = 429))) := by
  cases e <;> simp [is_retryable_error]

/-- C9: a 2xx response whose body parses but contains zero choices makes the
attempt fail with the protocol-level `InvalidResponse` error, never a
success, and leaves the session's continuity identifier untouched. -/
theorem c9_empty_choices_protocol_error (session : ChippSession) (cid : String)
    (status : Nat) (text : String) (body : ChatCompletionResponse)
    (hst : is_success status = true) (hch : body.choices = []) :
    chat_attempt session cid (.response status text (.ok body)) =
      (.error (.InvalidResponse "No choices in response"), session) := by
  simp only [chat_attempt]
  rw [if_pos hst]
  simp only [hch]

/-- C9 (witness): a concrete 200 response with an empty choices array fails
with `InvalidResponse` and keeps the previous session id. -/
theorem c9_witness :
    chat_attempt ⟨some "prev"⟩ "c"
        (.response 200 "" (.ok ⟨"new-id", "i", "chat.completion", 0, "m", [], ⟨0, 0, 0⟩⟩)) =
      (.error (.InvalidResponse "No choices in response"), ⟨some "prev"⟩) :=
  c9_empty_choices_protocol_error _ _ _ _ _ rfl rfl

/-- C10: whenever `chat_detailed` (or the `chat` wrapper) returns any error,
the caller's session is exactly as it was before the call: the session id is
assigned only on a successful attempt. -/
theorem c10_error_preserves_session (cfg : ChippConfig) (oracle : Nat → HttpOutcome)
    (delays : Nat → Nat) (cid : String) (session : ChippSession) (e : ChippClientError)
    (h : (chat_detailed cfg oracle delays cid session).result = .error e) :
    (chat_detailed cfg oracle delays cid session).session = session ∧
    (chat cfg oracle delays cid session).2 = session := by
  have hs := chipp_loop_error_session cfg oracle delays cid cfg.max_retries 1 session e h
  exact ⟨hs, hs⟩

/-- C10 (witness): a concrete exhausted run (max_retries = 0, one 500
failure) errors out and leaves the pre-existing session id in place. -/
theorem c10_witness :
    (chat_detailed ⟨"k", "u", "m", 30, 0, 1, 10⟩
        (fun _ => .response 500 "ise" (.error "")) (fun _ => 1) "c" ⟨some "keep"⟩).session =
      ⟨some "keep"⟩ ∧
    (chat ⟨"k", "u", "m", 30, 0, 1, 10⟩
        (fun _ => .response 500 "ise" (.error "")) (fun _ => 1) "c" ⟨some "keep"⟩).2 =
      ⟨some "keep"⟩ :=
  c10_error_preserves_session _ _ _ _ _ (.MaxRetriesExceeded 0) rfl

/-! Helper lemmas about the stream decoder. -/

/-- `splitOnNl` never returns the empty list. -/
theorem splitOnNl_ne_nil (s : List Char) : splitOnNl s ≠ [] := by
  induction s with
  | nil => simp [splitOnNl]
  | cons c cs ih =>
      rw [splitOnNl]
      by_cases hc : c = '\n'
      · simp [hc]
      · rw [if_neg hc]
        rcases h : splitOnNl cs with _ | ⟨s0, ss⟩ <;> simp

/-- A newline-free text is a single open segment. -/
theorem splitOnNl_no_nl {s : List Char} (h : '\n' ∉ s) : splitOnNl s = [s] := by
  induction s with
  | nil => rfl
  | cons c cs ih =>
      have hc : ¬ c = '\n' := fun hc => h (by rw [hc]; exact List.mem_cons_self _ _)
      rw [splitOnNl, if_neg hc, ih (fun hm => h (List.mem_cons_of_mem c hm))]

/-- Splitting after one complete (newline-free) line peels that line off. -/
theorem splitOnNl_append_nl {a : List Char} (b : List Char) (h : '\n' ∉ a) :
    splitOnNl (a ++ '\n' :: b) = a :: splitOnNl b := by
  induction a with
  | nil => simp [splitOnNl]
  | cons c cs ih =>
      have hc : ¬ c = '\n' := fun hc => h (by rw [hc]; exact List.mem_cons_self _ _)
      rw [List.cons_append, splitOnNl, if_neg hc,
        ih (fun hm => h (List.mem_cons_of_mem c hm))]

/-- `splitOnNl` undoes `intercalateNl` on non-empty lists of newline-free
segments. -/
theorem splitOnNl_intercalateNl :
    ∀ L : List (List Char), L ≠ [] → (∀ x ∈ L, '\n' ∉ x) →
      splitOnNl (intercalateNl L) = L
  | [], h, _ => absurd rfl h
  | [s], _, h => by
      rw [intercalateNl, splitOnNl_no_nl (h s (by simp))]
  | s :: s2 :: L, _, h => by
      rw [intercalateNl, splitOnNl_append_nl _ (h s (by simp)),
        splitOnNl_intercalateNl (s2 :: L) (List.cons_ne_nil s2 L)
          (fun x hx => h x (List.mem_cons_of_mem s hx))]

/-- A line that parses to an event is non-empty. -/
theorem parse_sse_line_ne_nil {l : List Char} {ev : StreamEvent}
    (h : parse_sse_line l = some ev) : l.isEmpty = false := by
  cases l with
  | nil =>
      rw [show parse_sse_line ([] : List Char) = none from by decide] at h
      cases h
  | cons c cs => rfl

/-- Processing a complete line that parses as a text delta emits it and
stops, leaving the rest of the buffer unconsumed. -/
theorem process_buffer_go_delta {a d : List Char} (cell : Option (List Char))
    (fin : Bool) (b : List Char) (rs : List (List Char))
    (h : parse_sse_line (trimChars a) = some (.TextDelta d)) :
    process_buffer_go cell fin (a :: b :: rs) = (some d, cell, fin, b :: rs) := by
  have hne := parse_sse_line_ne_nil h
  simp [process_buffer_go, hne, h]

/-- Processing a complete line that parses as session metadata stores the id
in the cell and continues with the rest of the buffer. -/
theorem process_buffer_go_session {a i : List Char} (cell : Option (List Char))
    (fin : Bool) (b : List Char) (rs : List (List Char))
    (h : parse_sse_line (trimChars a) = some (.SessionId i)) :
    process_buffer_go cell fin (a :: b :: rs) = process_buffer_go (some i) fin (b :: rs) := by
  have hne := parse_sse_line_ne_nil h
  simp [process_buffer_go, hne, h]

/-- Processing a complete line that parses as the terminator sets the
finished flag and stops, leaving the rest of the buffer unconsumed. -/
theorem process_buffer_go_done {a : List Char} (cell : Option (List Char))
    (fin : Bool) (b : List Char) (rs : List (List Char))
    (h : parse_sse_line (trimChars a) = some .Done) :
    process_buffer_go cell fin (a :: b :: rs) = (none, cell, true, b :: rs) := by
  have hne := parse_sse_line_ne_nil h
  simp [process_buffer_go, hne, h]

/-! Claim theorems for the stream decoder. -/

/-- C2 (counterexample): the claim that once a [DONE] line has been
processed no further chunks are read from the underlying byte source is
false: after the terminator chunk, the same poll keeps polling the inner
source, reads the next chunk and even emits its text delta as an event. -/
theorem c2_counterexample :
    (collectStream 10 [.chunk "data: [DONE]\n".data,
        .chunk "data: \x7b\"type\":\"text-delta\",\"delta\":\"after\"\x7d\n".data]
        initState).1 = [.ok "after"] := by
  rfl

/-- C2 (amended): processing a [DONE] line sets the finished flag, and the
finished state is sticky across polls: every poll of a finished stream
returns no event, reads nothing from the source and leaves the state
unchanged.  However, the poll during which [DONE] is processed may itself
continue reading chunks and emit further events from lines after the
terminator (see the counterexample). -/
theorem c2_done_finishes_and_sticky :
    (∀ (cell : Option (List Char)) (fin : Bool) (a b : List Char)
        (rs : List (List Char)), parse_sse_line (trimChars a) = some .Done →
        process_buffer_go cell fin (a :: b :: rs) = (none, cell, true, b :: rs)) ∧
    (∀ (src : List InnerItem) (st : DecState), st.finished = true →
        poll_next src st = (.closed, src, st)) := by
  refine ⟨fun cell fin a b rs h => process_buffer_go_done cell fin b rs h, ?_⟩
  intro src st h
  rw [poll_next, if_pos h]

/-- C2 (witness): a concrete [DONE] line sets the finished flag, and a
concrete finished stream ignores a pending chunk and stays closed. -/
theorem c2_witness :
    process_buffer_go none false ["data: [DONE]".data, []] = (none, none, true, [[]]) ∧
    poll_next [.chunk "x".data] ⟨[], none, true⟩ =
      (.closed, [.chunk "x".data], ⟨[], none, true⟩) :=
  ⟨c2_done_finishes_and_sticky.1 none false _ [] [] (by decide),
    c2_done_finishes_and_sticky.2 _ _ rfl⟩

/-- C3: the claim is the intent (the code comments "Stream ended, process
any remaining buffer") but the code drops the data: `process_buffer` only
extracts newline-terminated lines, so at source exhaustion a trailing
text-delta line without a line break is silently discarded instead of being
parsed as a final line.  The concrete stream below ends with zero emitted
events although its only line parses as `TextDelta "tail"`. -/
theorem c3_unterminated_tail_dropped :
    parse_sse_line
        (trimChars "data: \x7b\"type\":\"text-delta\",\"delta\":\"tail\"\x7d".data) =
      some (.TextDelta "tail".data) ∧
    (collectStream 10
        [.chunk "data: \x7b\"type\":\"text-delta\",\"delta\":\"tail\"\x7d".data]
        initState).1 = [] ∧
    (collectStream 10
        [.chunk "data: \x7b\"type\":\"text-delta\",\"delta\":\"tail\"\x7d".data]
        initState).2.finished = true := by
  exact ⟨by decide, rfl, rfl⟩

/-- C6 (counterexample): the claim that a UTF-8 decode failure is terminal
for the event sequence is false: after the Stream error is returned, the
next poll decodes the following chunk and produces a text event. -/
theorem c6_counterexample :
    (collectStream 10 [.badUtf8 "bad",
        .chunk "data: \x7b\"type\":\"text-delta\",\"delta\":\"later\"\x7d\n".data]
        initState).1 =
      [.error (.StreamError "Invalid UTF-8 in stream: bad"), .ok "later"] := by
  rfl

/-- C6 (amended): a chunk that fails UTF-8 decoding makes the poll surface a
Stream error immediately, consuming that chunk only; the decoder state is
unchanged (`finished` stays false, the buffer keeps its content), so the
failure is not terminal and later polls continue with the remaining
chunks (see the counterexample). -/
theorem c6_utf8_error_immediate_not_terminal (err : String) (rest : List InnerItem)
    (st : DecState) (hfin : st.finished = false) (hbuf : st.buffer = []) :
    poll_next (.badUtf8 err :: rest) st =
      (.event (.error (.StreamError ("Invalid UTF-8 in stream: " ++ err))), rest, st) := by
  obtain ⟨buf, cell, fin⟩ := st
  simp only at hfin hbuf
  subst hfin
  subst hbuf
  simp [poll_next, process_buffer, splitOnNl, process_buffer_go, intercalateNl, poll_loop]

/-- C6 (witness): a concrete bad chunk at the head of a fresh stream yields
the Stream error and leaves the fresh state untouched. -/
theorem c6_witness :
    poll_next [.badUtf8 "boom"] initState =
      (.event (.error (.StreamError "Invalid UTF-8 in stream: boom")), [], initState) :=
  c6_utf8_error_immediate_not_terminal "boom" [] initState rfl rfl

/-! Composition lemmas used by the well-formed-stream claim. -/

/-- Processing a buffer that starts with a complete text-delta line emits
the delta and keeps the remaining lines buffered. -/
theorem process_buffer_inter_delta {a d : List Char} {L : List (List Char)}
    (cell : Option (List Char)) (fin : Bool)
    (ha : parse_sse_line (trimChars a) = some (.TextDelta d))
    (hnl : '\n' ∉ a) (hL : L ≠ []) (hLnl : ∀ x ∈ L, '\n' ∉ x) :
    process_buffer ⟨intercalateNl (a :: L), cell, fin⟩ =
      (some d, ⟨intercalateNl L, cell, fin⟩) := by
  obtain ⟨b, rs, rfl⟩ : ∃ b rs, L = b :: rs := by
    cases L with
    | nil => exact absurd rfl hL
    | cons b rs => exact ⟨b, rs, rfl⟩
  have hmem : ∀ x ∈ a :: b :: rs, '\n' ∉ x := by
    intro x hx
    rcases List.mem_cons.mp hx with rfl | hx
    · exact hnl
    · exact hLnl x hx
  simp only [process_buffer]
  rw [splitOnNl_intercalateNl _ (List.cons_ne_nil _ _) hmem,
    process_buffer_go_delta cell fin b rs ha]

/-- Processing a buffer holding a metadata line, then a terminator line,
then the empty open tail stores the session id, marks the decoder finished
and consumes the whole buffer. -/
theorem process_buffer_inter_session_done {a7 a8 sid : List Char}
    (cell : Option (List Char)) (fin : Bool)
    (h7 : parse_sse_line (trimChars a7) = some (.SessionId sid))
    (h8 : parse_sse_line (trimChars a8) = some .Done)
    (n7 : '\n' ∉ a7) (n8 : '\n' ∉ a8) :
    process_buffer ⟨intercalateNl [a7, a8, []], cell, fin⟩ =
      (none, ⟨[], some sid, true⟩) := by
  have hmem : ∀ x ∈ [a7, a8, ([] : List Char)], '\n' ∉ x := by
    intro x hx
    simp only [List.mem_cons] at hx
    rcases hx with rfl | rfl | rfl | hx
    · exact n7
    · exact n8
    · exact List.not_mem_nil _
    · exact absurd hx (List.not_mem_nil _)
  simp only [process_buffer]
  rw [splitOnNl_intercalateNl _ (List.cons_ne_nil _ _) hmem,
    process_buffer_go_session cell fin a8 [[]] h7,
    process_buffer_go_done (some sid) fin [] [] h8]
  rfl

/-- A fresh-buffer poll that receives a chunk whose processed buffer emits a
delta returns that delta as an event. -/
theorem poll_next_first_chunk {T d : List Char} {st' : DecState}
    (cell : Option (List Char)) (rest : List InnerItem)
    (h : process_buffer ⟨T, cell, false⟩ = (some d, st')) :
    poll_next (.chunk T :: rest) ⟨[], cell, false⟩ =
      (.event (.ok (String.mk d)), rest, st') := by
  rw [poll_next, if_neg (by simp)]
  have h0 : process_buffer ⟨[], cell, false⟩ = (none, ⟨[], cell, false⟩) := rfl
  rw [h0]
  simp only [poll_loop, List.nil_append]
  rw [h]

/-- A poll on a buffer that starts with a complete text-delta line emits it
without touching the source. -/
theorem poll_next_buffer_delta {a d : List Char} {L : List (List Char)}
    (cell : Option (List Char)) (src : List InnerItem)
    (ha : parse_sse_line (trimChars a) = some (.TextDelta d))
    (hnl : '\n' ∉ a) (hL : L ≠ []) (hLnl : ∀ x ∈ L, '\n' ∉ x) :
    poll_next src ⟨intercalateNl (a :: L), cell, false⟩ =
      (.event (.ok (String.mk d)), src, ⟨intercalateNl L, cell, false⟩) := by
  rw [poll_next, if_neg (by simp)]
  rw [process_buffer_inter_delta cell false ha hnl hL hLnl]

/-- A poll on an exhausted source whose buffer holds the metadata line and
the terminator stores the id, finishes and closes the stream. -/
theorem poll_next_session_done {a7 a8 sid : List Char}
    (cell : Option (List Char))
    (h7 : parse_sse_line (trimChars a7) = some (.SessionId sid))
    (h8 : parse_sse_line (trimChars a8) = some .Done)
    (n7 : '\n' ∉ a7) (n8 : '\n' ∉ a8) :
    poll_next [] ⟨intercalateNl [a7, a8, []], cell, false⟩ =
      (.closed, [], ⟨[], some sid, true⟩) := by
  rw [poll_next, if_neg (by simp)]
  rw [process_buffer_inter_session_done cell false h7 h8 n7 n8]
  simp [poll_loop]

/-- Consumer-loop step: an event-returning poll prepends its item. -/
theorem collectStream_event {src src' : List InnerItem} {st st' : DecState}
    {r : Except ChippClientError String} (fuel : Nat)
    (h : poll_next src st = (.event r, src', st')) :
    collectStream (fuel + 1) src st =
      (r :: (collectStream fuel src' st').1, (collectStream fuel src' st').2) := by
  rw [collectStream, h]

/-- Consumer-loop step: a closed poll ends the collection. -/
theorem collectStream_closed {src src2 : List InnerItem} {st st' : DecState} (fuel : Nat)
    (h : poll_next src st = (.closed, src2, st')) :
    collectStream (fuel + 1) src st = ([], st') := by
  rw [collectStream, h]

/-- C5: decoding a well-formed stream of six text-delta lines followed by a
message-metadata line and then a terminator line (each newline-terminated,
delivered in one chunk) yields exactly the six text fragments as events in
arrival order — so their concatenation equals the concatenation of the six
original delta payloads — the captured continuity identifier equals the id
embedded in the metadata line, and the metadata event itself is not
delivered as a text chunk to the consumer. -/
theorem c5_six_deltas_then_metadata_then_done
    (l1 l2 l3 l4 l5 l6 l7 l8 d1 d2 d3 d4 d5 d6 sid : List Char) (fuel : Nat)
    (h1 : parse_sse_line (trimChars l1) = some (.TextDelta d1))
    (h2 : parse_sse_line (trimChars l2) = some (.TextDelta d2))
    (h3 : parse_sse_line (trimChars l3) = some (.TextDelta d3))
    (h4 : parse_sse_line (trimChars l4) = some (.TextDelta d4))
    (h5 : parse_sse_line (trimChars l5) = some (.TextDelta d5))
    (h6 : parse_sse_line (trimChars l6) = some (.TextDelta d6))
    (h7 : parse_sse_line (trimChars l7) = some (.SessionId sid))
    (h8 : parse_sse_line (trimChars l8) = some .Done)
    (n1 : '\n' ∉ l1) (n2 : '\n' ∉ l2) (n3 : '\n' ∉ l3) (n4 : '\n' ∉ l4)
    (n5 : '\n' ∉ l5) (n6 : '\n' ∉ l6) (n7 : '\n' ∉ l7) (n8 : '\n' ∉ l8) :
    collectStream (fuel + 7)
        [.chunk (intercalateNl [l1, l2, l3, l4, l5, l6, l7, l8, []])] initState =
      ([.ok (String.mk d1), .ok (String.mk d2), .ok (String.mk d3),
        .ok (String.mk d4), .ok (String.mk d5), .ok (String.mk d6)],
        ⟨[], some sid, true⟩) := by
  have m2 : ∀ x ∈ [l2, l3, l4, l5, l6, l7, l8, ([] : List Char)], '\n' ∉ x := by
    intro x hx
    simp only [List.mem_cons] at hx
    rcases hx with rfl | rfl | rfl | rfl | rfl | rfl | rfl | rfl | hx <;>
      first
        | assumption
        | exact List.not_mem_nil _
        | exact absurd hx (List.not_mem_nil _)
  have m3 : ∀ x ∈ [l3, l4, l5, l6, l7, l8, ([] : List Char)], '\n' ∉ x := by
    intro x hx
    simp only [List.mem_cons] at hx
    rcases hx with rfl | rfl | rfl | rfl | rfl | rfl | rfl | hx <;>
      first
        | assumption
        | exact List.not_mem_nil _
        | exact absurd hx (List.not_mem_nil _)
  have m4 : ∀ x ∈ [l4, l5, l6, l7, l8, ([] : List Char)], '\n' ∉ x := by
    intro x hx
    simp only [List.mem_cons] at hx
    rcases hx with rfl | rfl | rfl | rfl | rfl | rfl | hx <;>
      first
        | assumption
        | exact List.not_mem_nil _
        | exact absurd hx (List.not_mem_nil _)
  have m5 : ∀ x ∈ [l5, l6, l7, l8, ([] : List Char)], '\n' ∉ x := by
    intro x hx
    simp only [List.mem_cons] at hx
    rcases hx with rfl | rfl | rfl | rfl | rfl | hx <;>
      first
        | assumption
        | exact List.not_mem_nil _
        | exact absurd hx (List.not_mem_nil _)
  have m6 : ∀ x ∈ [l6, l7, l8, ([] : List Char)], '\n' ∉ x := by
    intro x hx
    simp only [List.mem_cons] at hx
    rcases hx with rfl | rfl | rfl | rfl | hx <;>
      first
        | assumption
        | exact List.not_mem_nil _
        | exact absurd hx (List.not_mem_nil _)
  have m7 : ∀ x ∈ [l7, l8, ([] : List Char)], '\n' ∉ x := by
    intro x hx
    simp only [List.mem_cons] at hx
    rcases hx with rfl | rfl | rfl | hx <;>
      first
        | assumption
        | exact List.not_mem_nil _
        | exact absurd hx (List.not_mem_nil _)
  have p1 := poll_next_first_chunk none []
    (process_buffer_inter_delta (L := [l2, l3, l4, l5, l6, l7, l8, []])
      none false h1 n1 (List.cons_ne_nil _ _) m2)
  have p2 := poll_next_buffer_delta (L := [l3, l4, l5, l6, l7, l8, []])
    none [] h2 n2 (List.cons_ne_nil _ _) m3
  have p3 := poll_next_buffer_delta (L := [l4, l5, l6, l7, l8, []])
    none [] h3 n3 (List.cons_ne_nil _ _) m4
  have p4 := poll_next_buffer_delta (L := [l5, l6, l7, l8, []])
    none [] h4 n4 (List.cons_ne_nil _ _) m5
  have p5 := poll_next_buffer_delta (L := [l6, l7, l8, []])
    none [] h5 n5 (List.cons_ne_nil _ _) m6
  have p6 := poll_next_buffer_delta (L := [l7, l8, []])
    none [] h6 n6 (List.cons_ne_nil _ _) m7
  have p7 := poll_next_session_done none h7 h8 n7 n8
  simp only [initState]
  rw [show fuel + 7 = (fuel + 6) + 1 from rfl, collectStream_event (fuel + 6) p1]
  rw [show fuel + 6 = (fuel + 5) + 1 from rfl, collectStream_event (fuel + 5) p2]
  rw [show fuel + 5 = (fuel + 4) + 1 from rfl, collectStream_event (fuel + 4) p3]
  rw [show fuel + 4 = (fuel + 3) + 1 from rfl, collectStream_event (fuel + 3) p4]
  rw [show fuel + 3 = (fuel + 2) + 1 from rfl, collectStream_event (fuel + 2) p5]
  rw [show fuel + 2 = (fuel + 1) + 1 from rfl, collectStream_event (fuel + 1) p6]
  rw [collectStream_closed fuel p7]

/-- C5 (witness): the concrete six-chunk stream of the repository's own
streaming test decodes to its six fragments in order and captures the
session id "session-123". -/
theorem c5_witness :
    collectStream 20
        [.chunk (intercalateNl
          ["data: \x7b\"type\":\"text-delta\",\"id\":\"m1\",\"delta\":\"Hello! \"\x7d".data,
           "data: \x7b\"type\":\"text-delta\",\"id\":\"m1\",\"delta\":\"How \"\x7d".data,
           "data: \x7b\"type\":\"text-delta\",\"id\":\"m1\",\"delta\":\"can \"\x7d".data,
           "data: \x7b\"type\":\"text-delta\",\"id\":\"m1\",\"delta\":\"I \"\x7d".data,
           "data: \x7b\"type\":\"text-delta\",\"id\":\"m1\",\"delta\":\"help \"\x7d".data,
           "data: \x7b\"type\":\"text-delta\",\"id\":\"m1\",\"delta\":\"you?\"\x7d".data,
           "data: \x7b\"type\":\"message-metadata\",\"messageMetadata\":\x7b\"annotations\":[\x7b\"persistedMessageId\":\"session-123\"\x7d]\x7d\x7d".data,
           "data: [DONE]".data, []])] initState =
      ([.ok "Hello! ", .ok "How ", .ok "can ", .ok "I ", .ok "help ", .ok "you?"],
        ⟨[], some "session-123".data, true⟩) :=
  c5_six_deltas_then_metadata_then_done _ _ _ _ _ _ _ _ _ _ _ _ _ _ _ 13
    (by decide) (by decide) (by decide) (by decide) (by decide) (by decide)
    (by decide) (by decide)
    (by decide) (by decide) (by decide) (by decide) (by decide) (by decide)
    (by decide) (by decide)

end Chipp
